import Mathlib

/-!
Verification of the REST client / drift-detection core of the
terraform-provider-rest repository, against its natural-language specification.

The Go source is shallowly embedded:

* `internal/client/client.go` — retry/backoff executor (`executeWithRetry`,
  `calculateBackoff`, `IsRetryableStatusCode`), TLS assembly (`configureTLSAuth`).
* `internal/provider/rest_resource.go` — drift comparator
  (`performDriftDetection`, `compareStructuredData`, `valuesEqual`) and the
  response projector (`processResponse`).
* `internal/provider/provider.go` — provider `Configure` validation.

Machine integers (Go `int64` / `time.Duration`) are modelled as `Int` with
explicit two's-complement wrapping where the source can overflow.  Go runtime
panics are modelled as `Except.error ()`.  The network and the filesystem are
modelled as oracles supplied to the embedded functions.
-/

/-! ## Retry/backoff executor (internal/client/client.go) -/

/-- Two's-complement wrap of an integer into the signed 64-bit range,
modelling Go's `int64` overflow behaviour. -/
def int64Wrap (n : Int) : Int :=
  (n + 2 ^ 63) % 2 ^ 64 - 2 ^ 63

/-- Go's evaluation of `1 << uint(attempt)` at type `time.Duration` (= `int64`),
as written in `calculateBackoff` (client.go line 359): a shift count of 64 or
more produces 0, smaller counts wrap in 64 bits. -/
def goShiftOneLeft (attempt : Nat) : Int :=
  if 64 ≤ attempt then 0 else int64Wrap (2 ^ attempt)

/-- `calculateBackoff` (client.go lines 353-365).  The result is a
`time.Duration`, i.e. a number of nanoseconds held in an `int64`;
`baseDelay = time.Second = 10^9 ns`, `maxDelay = 30 s`.  The multiplication
`baseDelay * time.Duration(1<<uint(attempt))` is 64-bit and can wrap. -/
def calculateBackoff (attempt : Nat) : Int :=
  let baseDelay : Int := 1000000000
  let maxDelay : Int := 30000000000
  let delay := int64Wrap (baseDelay * goShiftOneLeft attempt)
  if maxDelay < delay then maxDelay else delay

/-- `IsRetryableStatusCode` (client.go lines 388-400): the `switch` lists
exactly 429, 500, 502, 503, 504. -/
def IsRetryableStatusCode (statusCode : Int) : Bool :=
  statusCode == 429 || statusCode == 500 || statusCode == 502 ||
  statusCode == 503 || statusCode == 504

/-- Outcome of one HTTP attempt, abstracting the network (`c.httpClient.Do`
plus the subsequent `io.ReadAll` of the body in client.go lines 257-311):
either the transport fails, or the body read fails on a response carrying a
status code, or a response with status and body is fully read. -/
inductive AttemptOutcome where
  | transportError (msg : String)
  | bodyReadError (statusCode : Int)
  | success (statusCode : Int) (body : String)
deriving DecidableEq

/-- The `Response` struct of client.go (status code and body; headers and the
originating request are carried along in the source and not modelled). -/
structure RestResponse where
  statusCode : Int
  body : String
deriving DecidableEq

/-- The error values `executeWithRetry` can hold in `lastErr`
(client.go lines 261, 291, 315). -/
inductive AttemptError where
  | transport (msg : String)
  | bodyRead (statusCode : Int)
  | retryableStatus (code : Int)
deriving DecidableEq

/-- The errors `executeWithRetry` can return: the immediate body-read failure
on a 2xx response (line 298) and the terminal wrapper
`request failed after %d attempts: %w` around the last error (line 350). -/
inductive ClientError where
  | bodyReadFailure (statusCode : Int)
  | afterAttempts (retries : Nat) (last : Option AttemptError)
deriving DecidableEq

/-- The retry loop of `executeWithRetry` (client.go lines 246-351), entered at
a given attempt index with the current `lastErr`.  The network is an oracle
from attempt index to `AttemptOutcome`.  The caller context is modelled as
never cancelled (none of the verified claims involves cancellation).  Besides
the result, the list of backoff delays actually slept (in ns, computed by
`calculateBackoff`) is returned, in order. -/
def executeWithRetryFrom (oracle : Nat → AttemptOutcome) (retries : Nat)
    (attempt : Nat) (lastErr : Option AttemptError) :
    Except ClientError RestResponse × List Int :=
  if _h : attempt < retries then
    match oracle attempt with
    | .transportError msg =>
        -- lines 260-284: record lastErr; sleep and retry while attempts remain
        if attempt < retries - 1 then
          let rest := executeWithRetryFrom oracle retries (attempt + 1)
            (some (.transport msg))
          (rest.1, calculateBackoff attempt :: rest.2)
        else
          executeWithRetryFrom oracle retries (attempt + 1) (some (.transport msg))
    | .bodyReadError statusCode =>
        -- lines 290-311: 2xx responses with unreadable bodies are fatal at once
        if 200 ≤ statusCode ∧ statusCode < 300 then
          (.error (.bodyReadFailure statusCode), [])
        else if attempt < retries - 1 then
          let rest := executeWithRetryFrom oracle retries (attempt + 1)
            (some (.bodyRead statusCode))
          (rest.1, calculateBackoff attempt :: rest.2)
        else
          executeWithRetryFrom oracle retries (attempt + 1) (some (.bodyRead statusCode))
    | .success statusCode body =>
        -- lines 313-347: retry on a retryable status while attempts remain,
        -- otherwise hand the response back as-is
        if IsRetryableStatusCode statusCode ∧ attempt < retries - 1 then
          let rest := executeWithRetryFrom oracle retries (attempt + 1)
            (some (.retryableStatus statusCode))
          (rest.1, calculateBackoff attempt :: rest.2)
        else
          (.ok ⟨statusCode, body⟩, [])
  else
    (.error (.afterAttempts retries lastErr), [])
termination_by retries - attempt

/-- `executeWithRetry` entered as `Do` enters it: attempt 0, no last error. -/
def executeWithRetry (oracle : Nat → AttemptOutcome) (retries : Nat) :
    Except ClientError RestResponse × List Int :=
  executeWithRetryFrom oracle retries 0 none

/-- Attempt outcomes on which the loop proceeds to the next attempt when
further attempts remain: transport errors, body-read failures on non-2xx
responses, and responses with a retryable status code. -/
def retriesOn : AttemptOutcome → Bool
  | .transportError _ => true
  | .bodyReadError statusCode => !(decide (200 ≤ statusCode ∧ statusCode < 300))
  | .success statusCode _ => IsRetryableStatusCode statusCode

/-- Reaching the final attempt: if every attempt before the last one has an
outcome the loop retries on, the loop arrives at the last attempt with any
accumulated `lastErr`, and a success outcome there is returned as-is. -/
theorem executeWithRetryFrom_runs_to_last (oracle : Nat → AttemptOutcome) (retries : Nat)
    (s : Int) (b : String) (hr : 1 ≤ retries)
    (hlast : oracle (retries - 1) = .success s b) :
    ∀ k attempt lastErr, attempt + k = retries - 1 →
      (∀ j, attempt ≤ j → j < retries - 1 → retriesOn (oracle j) = true) →
      (executeWithRetryFrom oracle retries attempt lastErr).1 = .ok ⟨s, b⟩ := by
  intro k
  induction k with
  | zero =>
      intro attempt lastErr hsum hcont
      have ha : attempt = retries - 1 := by omega
      subst ha
      unfold executeWithRetryFrom
      rw [dif_pos (by omega : retries - 1 < retries), hlast]
      dsimp only
      rw [if_neg (by omega : ¬ (IsRetryableStatusCode s = true ∧ retries - 1 < retries - 1))]
  | succ k ih =>
      intro attempt lastErr hsum hcont
      have hlt : attempt < retries := by omega
      have hlt1 : attempt < retries - 1 := by omega
      have hretry : retriesOn (oracle attempt) = true :=
        hcont attempt le_rfl hlt1
      have hcont' : ∀ j, attempt + 1 ≤ j → j < retries - 1 → retriesOn (oracle j) = true :=
        fun j h1 h2 => hcont j (by omega) h2
      unfold executeWithRetryFrom
      rw [dif_pos hlt]
      cases ho : oracle attempt with
      | transportError msg =>
          dsimp only
          rw [if_pos hlt1]
          exact ih (attempt + 1) _ (by omega) hcont'
      | bodyReadError statusCode =>
          have h2xx : ¬ (200 ≤ statusCode ∧ statusCode < 300) := by
            rw [ho] at hretry
            simp only [retriesOn, Bool.not_eq_true', decide_eq_false_iff_not] at hretry
            exact hretry
          dsimp only
          rw [if_neg h2xx, if_pos hlt1]
          exact ih (attempt + 1) _ (by omega) hcont'
      | success statusCode body =>
          have hrs : IsRetryableStatusCode statusCode = true := by
            rw [ho] at hretry
            simpa [retriesOn] using hretry
          dsimp only
          rw [if_pos (show IsRetryableStatusCode statusCode = true ∧ attempt < retries - 1 from
            ⟨hrs, hlt1⟩)]
          exact ih (attempt + 1) _ (by omega) hcont'

/-- C1: in every execution whose final allowed attempt yields a response with
a retryable status code (all earlier attempts having been retried), the loop
terminates and returns that last response's status and body as its result; the
surfaced status is in the retryable set and outside the 2xx success range, so
the final failure reason is carried in the returned value, not lost. -/
theorem executeWithRetry_exhausted_returns_last_response
    (oracle : Nat → AttemptOutcome) (retries : Nat) (s : Int) (b : String)
    (hr : 1 ≤ retries)
    (hlast : oracle (retries - 1) = .success s b)
    (hs : IsRetryableStatusCode s = true)
    (hcont : ∀ j, j < retries - 1 → retriesOn (oracle j) = true) :
    (executeWithRetry oracle retries).1 = .ok ⟨s, b⟩ ∧
    IsRetryableStatusCode s = true ∧ ¬ (200 ≤ s ∧ s < 300) := by
  refine ⟨?_, hs, ?_⟩
  · exact executeWithRetryFrom_runs_to_last oracle retries s b hr hlast (retries - 1) 0 none
      (by omega) (fun j _ h2 => hcont j h2)
  · have hcases := hs
    simp only [IsRetryableStatusCode, Bool.or_eq_true, beq_iff_eq] at hcases
    rcases hcases with h | h | h | h | h <;> omega

/-- A two-attempt execution: a retryable 503, then a final retryable 500. -/
def exhaustedOracle : Nat → AttemptOutcome := fun n =>
  if n = 0 then .success 503 "busy" else .success 500 "boom"

/-- Witness for C1: the concrete exhausted execution surfaces status 500 and
body `boom`. -/
theorem executeWithRetry_exhausted_returns_last_response_witness :
    (executeWithRetry exhaustedOracle 2).1 = .ok ⟨500, "boom"⟩ ∧
    IsRetryableStatusCode 500 = true ∧ ¬ ((200:Int) ≤ 500 ∧ (500:Int) < 300) :=
  executeWithRetry_exhausted_returns_last_response exhaustedOracle 2 500 "boom"
    (by decide) (by decide) (by decide)
    (by intro j hj
        have hj0 : j = 0 := by omega
        subst hj0
        decide)

/-- C4: a body-read failure on a 2xx response returns the body-read error
immediately (no backoff is slept, no further attempt consulted); a body-read
failure on a non-2xx response, with attempts remaining, sleeps one backoff
delay and proceeds to the next attempt. -/
theorem executeWithRetry_bodyReadFailure_policy
    (oracle : Nat → AttemptOutcome) (retries attempt : Nat)
    (lastErr : Option AttemptError) (s : Int)
    (hlt : attempt < retries)
    (ho : oracle attempt = .bodyReadError s) :
    ((200 ≤ s ∧ s < 300) →
      executeWithRetryFrom oracle retries attempt lastErr =
        (.error (.bodyReadFailure s), [])) ∧
    (¬ (200 ≤ s ∧ s < 300) → attempt < retries - 1 →
      executeWithRetryFrom oracle retries attempt lastErr =
        ((executeWithRetryFrom oracle retries (attempt + 1) (some (.bodyRead s))).1,
         calculateBackoff attempt ::
           (executeWithRetryFrom oracle retries (attempt + 1) (some (.bodyRead s))).2)) := by
  constructor
  · intro h2xx
    unfold executeWithRetryFrom
    rw [dif_pos hlt, ho]
    dsimp only
    rw [if_pos h2xx]
  · intro h2xx hlt1
    conv_lhs => rw [executeWithRetryFrom.eq_def]
    rw [dif_pos hlt, ho]
    dsimp only
    rw [if_neg h2xx, if_pos hlt1]

/-- An execution whose first attempt reads no body on a 200 response. -/
def bodyRead2xxOracle : Nat → AttemptOutcome := fun _ => .bodyReadError 200

/-- An execution whose first attempt reads no body on a 500 response. -/
def bodyRead5xxOracle : Nat → AttemptOutcome := fun _ => .bodyReadError 500

/-- Witness for C4: concrete three-attempt executions showing the immediate
2xx body-read failure and the backoff-then-retry on a 500 body-read failure. -/
theorem executeWithRetry_bodyReadFailure_policy_witness :
    executeWithRetryFrom bodyRead2xxOracle 3 0 none = (.error (.bodyReadFailure 200), []) ∧
    executeWithRetryFrom bodyRead5xxOracle 3 0 none =
      ((executeWithRetryFrom bodyRead5xxOracle 3 1 (some (.bodyRead 500))).1,
       calculateBackoff 0 ::
         (executeWithRetryFrom bodyRead5xxOracle 3 1 (some (.bodyRead 500))).2) :=
  ⟨(executeWithRetry_bodyReadFailure_policy bodyRead2xxOracle 3 0 none 200
      (by decide) rfl).1 (by decide),
   (executeWithRetry_bodyReadFailure_policy bodyRead5xxOracle 3 0 none 500
      (by decide) rfl).2 (by decide) (by decide)⟩

/-- C8: `IsRetryableStatusCode` holds for exactly 429, 500, 502, 503, 504,
and in particular rejects 200, 301, 400 and 404. -/
theorem isRetryableStatusCode_exact_set :
    (∀ c : Int, IsRetryableStatusCode c = true ↔
      (c = 429 ∨ c = 500 ∨ c = 502 ∨ c = 503 ∨ c = 504)) ∧
    IsRetryableStatusCode 200 = false ∧ IsRetryableStatusCode 301 = false ∧
    IsRetryableStatusCode 400 = false ∧ IsRetryableStatusCode 404 = false := by
  refine ⟨fun c => ?_, by decide, by decide, by decide, by decide⟩
  simp only [IsRetryableStatusCode, Bool.or_eq_true, beq_iff_eq]
  tauto

/-- C3 (code bug): the backoff matches `min(30s, 1s * 2^i)` for i = 0, 4, 6
and up to i = 33, but at attempt index 34 the 64-bit multiplication
`baseDelay * (1 << 34)` overflows and `calculateBackoff` returns a negative
delay instead of the 30s cap, so the claimed formula, positivity and
monotonicity all fail there (delays are in nanoseconds). -/
theorem calculateBackoff_overflows_at_attempt_34 :
    calculateBackoff 0 = 1000000000 ∧
    calculateBackoff 4 = 16000000000 ∧
    calculateBackoff 6 = 30000000000 ∧
    calculateBackoff 33 = 30000000000 ∧
    calculateBackoff 34 = -1266874889709551616 ∧
    calculateBackoff 34 < 0 ∧
    calculateBackoff 34 ≠ min 30000000000 (1000000000 * 2 ^ 34) ∧
    calculateBackoff 34 < calculateBackoff 33 := by
  decide

/-! ## Drift comparator (internal/provider/rest_resource.go)

JSON values as decoded into a Go `interface{}` value bag.  `encoding/json`
decodes numbers to `float64`; other code paths may hold Go `int` values, and
`valuesEqual` treats both, so the model keeps the two numeric dynamic types
apart.  Numeric payloads are carried exactly as rationals: every numeric
literal any claim exercises is exactly representable in `float64`, where Go's
`==` and the conversion `float64(int)` coincide with exact rational equality
(the rounding of conversions beyond 2^53 is not modelled; no claim reaches
it). -/
inductive JValue where
  | jnull
  | jbool (b : Bool)
  | jfloat (q : ℚ)
  | jint (n : Int)
  | jstr (s : String)
  | jarr (elems : List JValue)
  | jobj (fields : List (String × JValue))

/-- Go interface equality `a == b`, as reached by the final line of
`valuesEqual` (rest_resource.go line 1080).  Two interface values of
identical comparable dynamic types compare their payloads; identical
NON-comparable dynamic types (`map[string]interface{}`, `[]interface{}`)
raise a runtime panic, modelled as `.error ()`; differing dynamic types
compare unequal without panicking. -/
def goInterfaceEq : JValue → JValue → Except Unit Bool
  | .jobj _, .jobj _ => .error ()
  | .jarr _, .jarr _ => .error ()
  | .jnull, .jnull => .ok true
  | .jbool a, .jbool b => .ok (a == b)
  | .jfloat a, .jfloat b => .ok (a == b)
  | .jint a, .jint b => .ok (a == b)
  | .jstr a, .jstr b => .ok (a == b)
  | _, _ => .ok false

/-- `valuesEqual` (rest_resource.go lines 1052-1081): nil checks, the
float64/int cross-type numeric cases, then the raw interface comparison
(which can panic). -/
def valuesEqual : JValue → JValue → Except Unit Bool
  | .jnull, .jnull => .ok true
  | .jnull, _ => .ok false
  | _, .jnull => .ok false
  | .jfloat a, .jfloat b => .ok (a == b)
  | .jfloat a, .jint b => .ok (a == (b : ℚ))
  | .jint a, .jfloat b => .ok ((a : ℚ) == b)
  | .jint a, .jint b => .ok (a == b)
  | a, b => goInterfaceEq a b

/-- Go map indexing `current[key]` over an association-list model of the
decoded object (Go map keys are unique; the first binding wins). -/
def lookupKey {α : Type} (key : String) : List (String × α) → Option α
  | [] => none
  | (k, v) :: rest => if k = key then some v else lookupKey key rest

mutual

/-- `compareStructuredData` (rest_resource.go lines 962-1009): walk the
expected object's keys; skip ignored keys (bare name, any depth); a key
missing from `current` flags drift; otherwise compare via `valuesEqual`
(which panics — `.error ()` — when both sides are nested maps or both are
arrays) and then recurse into nested objects (`nestedObjectDrift`, the
`if`-statement at lines 998-1005) with the field path extended.  The
statement sequence of the Go loop body is modelled by `Except.bind`, which
propagates a panic exactly as Go aborts the remaining statements.  Go's
random map iteration order is modelled by the list order; the observable
result (panic, or the accumulated drift flag) is order-independent. -/
def compareStructuredData (expected current : List (String × JValue))
    (ignoreFields : String → Bool) (path : String) : Except Unit Bool :=
  match expected with
  | [] => .ok false
  | (key, expectedValue) :: rest =>
      let fieldPath := if path = "" then key else path ++ "." ++ key
      if ignoreFields key then
        compareStructuredData rest current ignoreFields path
      else
        match lookupKey key current with
        | none =>
            (compareStructuredData rest current ignoreFields path).bind
              (fun restDrift => .ok (true || restDrift))
        | some currentValue =>
            (valuesEqual expectedValue currentValue).bind (fun same =>
              (nestedObjectDrift expectedValue currentValue ignoreFields fieldPath).bind
                (fun nestedDrift =>
                  (compareStructuredData rest current ignoreFields path).bind
                    (fun restDrift => .ok (!same || nestedDrift || restDrift))))
termination_by sizeOf expected

/-- The nested-object recursion of `compareStructuredData`
(rest_resource.go lines 998-1005): when both sides are objects, recurse with
the extended field path; any other shape contributes no extra drift here. -/
def nestedObjectDrift (expectedValue currentValue : JValue)
    (ignoreFields : String → Bool) (fieldPath : String) : Except Unit Bool :=
  match expectedValue, currentValue with
  | .jobj expectedMap, .jobj currentMap =>
      compareStructuredData expectedMap currentMap ignoreFields fieldPath
  | _, _ => .ok false
termination_by sizeOf expectedValue

end

/-- The `defaultIgnoreFields` list of `performDriftDetection`
(rest_resource.go lines 912-919), always merged into the ignore set. -/
def defaultIgnoreFields : List String :=
  ["id", "created_at", "updated_at", "last_modified", "etag",
   "version", "revision", "timestamp", "last_updated_at",
   "created_by", "updated_by", "modified_by", "owner_id",
   "_id", "_created", "_updated", "_modified", "_version",
   "createdAt", "updatedAt", "lastModified", "lastUpdated",
   "href", "self", "links", "_links", "meta", "_meta"]

/-- The ignore set built at rest_resource.go lines 908-934: the default
server-metadata names plus the user-supplied ones. -/
def ignoreSet (userIgnoreFields : List String) : String → Bool :=
  fun k => defaultIgnoreFields.contains k || userIgnoreFields.contains k

/-- The spec's `DetectDrift(expected, observed, ignoreFields)` contract: the
structured comparison performed by `performDriftDetection` with the merged
ignore set and an empty starting path (rest_resource.go line 949). -/
def DetectDrift (expected observed : List (String × JValue))
    (userIgnoreFields : List String) : Except Unit Bool :=
  compareStructuredData expected observed (ignoreSet userIgnoreFields) ""

/-- `performDriftDetection` (rest_resource.go lines 882-960).  Parsing is
external to the comparator, so the JSON parse outcomes of the two bodies are
inputs (`none` = `json.Unmarshal` failed).  The Go function returns a `nil`
error on every path; its only failure mode is the runtime panic escaping from
`valuesEqual`, modelled as `.error ()`.  `.ok (some d)` is a completed
structured comparison with drift flag `d`, `.ok none` a read that skipped the
structured comparison (detection disabled, empty/non-JSON response body, no
expected body, or raw string comparison — all of which only log). -/
def performDriftDetection (driftSetting : Option Bool)
    (responseBody : String) (responseParsed : Option (List (String × JValue)))
    (expectedBody : Option String) (expectedParsed : Option (List (String × JValue)))
    (userIgnoreFields : List String) : Except Unit (Option Bool) :=
  if driftSetting = some false then .ok none
  else if responseBody = "" then .ok none
  else
    match responseParsed with
    | none => .ok none
    | some currentData =>
      match expectedBody with
      | none => .ok none
      | some raw =>
        if raw = "" then .ok none
        else
          match expectedParsed with
          | none => .ok none
          | some expectedData =>
            (DetectDrift expectedData currentData userIgnoreFields).map some

/-- Unfolding: the empty expected object compares clean. -/
theorem compareStructuredData_nil (current : List (String × JValue))
    (ign : String → Bool) (path : String) :
    compareStructuredData [] current ign path = .ok false := by
  rw [compareStructuredData.eq_def]

/-- Unfolding: an ignored key is skipped. -/
theorem compareStructuredData_cons_ignored (key : String) (ev : JValue)
    (rest current : List (String × JValue)) (ign : String → Bool) (path : String)
    (h : ign key = true) :
    compareStructuredData ((key, ev) :: rest) current ign path =
      compareStructuredData rest current ign path := by
  rw [compareStructuredData.eq_def]
  dsimp only
  rw [if_pos h]

/-- Unfolding: a key missing from the observed object flags drift and the
walk continues. -/
theorem compareStructuredData_cons_missing (key : String) (ev : JValue)
    (rest current : List (String × JValue)) (ign : String → Bool) (path : String)
    (h : ign key = false) (hl : lookupKey key current = none) :
    compareStructuredData ((key, ev) :: rest) current ign path =
      (compareStructuredData rest current ign path).bind
        (fun restDrift => .ok (true || restDrift)) := by
  rw [compareStructuredData.eq_def]
  dsimp only
  rw [if_neg (by simp [h]), hl]

/-- Unfolding: a key present in the observed object is compared via
`valuesEqual`, then the nested-object recursion, then the rest of the walk. -/
theorem compareStructuredData_cons_found (key : String) (ev cv : JValue)
    (rest current : List (String × JValue)) (ign : String → Bool) (path : String)
    (h : ign key = false) (hl : lookupKey key current = some cv) :
    compareStructuredData ((key, ev) :: rest) current ign path =
      (valuesEqual ev cv).bind (fun same =>
        (nestedObjectDrift ev cv ign (if path = "" then key else path ++ "." ++ key)).bind
          (fun nestedDrift =>
            (compareStructuredData rest current ign path).bind
              (fun restDrift => .ok (!same || nestedDrift || restDrift)))) := by
  rw [compareStructuredData.eq_def]
  dsimp only
  rw [if_neg (by simp [h]), hl]

instance {ε α : Type} [DecidableEq ε] [DecidableEq α] : DecidableEq (Except ε α) :=
  fun a b =>
    match a, b with
    | .ok x, .ok y =>
        if h : x = y then .isTrue (by rw [h]) else .isFalse (by intro hc; cases hc; exact h rfl)
    | .error x, .error y =>
        if h : x = y then .isTrue (by rw [h]) else .isFalse (by intro hc; cases hc; exact h rfl)
    | .ok _, .error _ => .isFalse (by intro hc; cases hc)
    | .error _, .ok _ => .isFalse (by intro hc; cases hc)

/-- Fuel-indexed form of `compareStructuredData`, used to compute concrete
instances by kernel reduction; `compareStructuredDataFuel_eq` proves it agrees
with `compareStructuredData` whenever the fuel is at least the expected
object's size, so every concrete evaluation below is an evaluation of the
embedded source function. -/
def compareStructuredDataFuel : Nat → List (String × JValue) →
    List (String × JValue) → (String → Bool) → String → Except Unit Bool
  | 0, _, _, _, _ => .error ()
  | fuel + 1, expected, current, ignoreFields, path =>
    match expected with
    | [] => .ok false
    | (key, expectedValue) :: rest =>
        let fieldPath := if path = "" then key else path ++ "." ++ key
        if ignoreFields key then
          compareStructuredDataFuel fuel rest current ignoreFields path
        else
          match lookupKey key current with
          | none =>
              (compareStructuredDataFuel fuel rest current ignoreFields path).bind
                (fun restDrift => .ok (true || restDrift))
          | some currentValue =>
              (valuesEqual expectedValue currentValue).bind (fun same =>
                (match expectedValue, currentValue with
                 | JValue.jobj expectedMap, JValue.jobj currentMap =>
                     compareStructuredDataFuel fuel expectedMap currentMap ignoreFields fieldPath
                 | _, _ => .ok false).bind
                  (fun nestedDrift =>
                    (compareStructuredDataFuel fuel rest current ignoreFields path).bind
                      (fun restDrift => .ok (!same || nestedDrift || restDrift))))

/-- Unfolding of the nested-object recursion by value shape. -/
theorem nestedObjectDrift_eq (ev cv : JValue) (ign : String → Bool) (fp : String) :
    nestedObjectDrift ev cv ign fp =
      (match ev, cv with
       | JValue.jobj expectedMap, JValue.jobj currentMap =>
           compareStructuredData expectedMap currentMap ign fp
       | _, _ => .ok false) := by
  rw [nestedObjectDrift.eq_def]

/-- With enough fuel, the fuel-indexed evaluator computes
`compareStructuredData`. -/
theorem compareStructuredDataFuel_eq :
    ∀ (fuel : Nat) (expected current : List (String × JValue))
      (ign : String → Bool) (path : String),
      sizeOf expected ≤ fuel →
      compareStructuredDataFuel fuel expected current ign path =
        compareStructuredData expected current ign path := by
  intro fuel
  induction fuel with
  | zero =>
      intro expected current ign path h
      exact absurd h (by cases expected <;> simp)
  | succ fuel ih =>
      intro expected current ign path h
      match expected with
      | [] => rw [compareStructuredData_nil]; rfl
      | (key, ev) :: rest =>
          have hsz : sizeOf rest ≤ fuel ∧ sizeOf ev ≤ fuel := by
            have : sizeOf ((key, ev) :: rest) = 1 + (1 + sizeOf key + sizeOf ev) + sizeOf rest := by
              simp [List.cons.sizeOf_spec, Prod.mk.sizeOf_spec]
            omega
          show (if ign key then _ else _) = _
          by_cases hign : ign key = true
          · rw [if_pos hign, compareStructuredData_cons_ignored key ev rest current ign path hign]
            exact ih rest current ign path hsz.1
          · have hign' : ign key = false := by simpa using hign
            rw [if_neg (by simp [hign'])]
            cases hobs : lookupKey key current with
            | none =>
                rw [compareStructuredData_cons_missing key ev rest current ign path hign' hobs]
                dsimp only
                rw [ih rest current ign path hsz.1]
            | some cv =>
                rw [compareStructuredData_cons_found key ev cv rest current ign path hign' hobs]
                dsimp only
                rw [ih rest current ign path hsz.1, nestedObjectDrift_eq]
                cases ev with
                | jobj em =>
                    cases cv with
                    | jobj cm =>
                        have hem : sizeOf em ≤ fuel := by
                          have : sizeOf (JValue.jobj em) = 1 + sizeOf em := by
                            simp [JValue.jobj.sizeOf_spec]
                          omega
                        dsimp only
                        rw [ih em cm ign _ hem]
                    | jnull => rfl
                    | jbool b => rfl
                    | jfloat q => rfl
                    | jint n => rfl
                    | jstr s => rfl
                    | jarr xs => rfl
                | jnull => rfl
                | jbool b => rfl
                | jfloat q => rfl
                | jint n => rfl
                | jstr s => rfl
                | jarr xs => rfl

/-- `DetectDrift` computed through the fuel-indexed evaluator. -/
theorem DetectDrift_eval (expected observed : List (String × JValue))
    (userIgnoreFields : List String) :
    DetectDrift expected observed userIgnoreFields =
      compareStructuredDataFuel (sizeOf expected) expected observed
        (ignoreSet userIgnoreFields) "" :=
  (compareStructuredDataFuel_eq (sizeOf expected) expected observed
    (ignoreSet userIgnoreFields) "" le_rfl).symm

/-- Appending bindings on the right does not change a lookup whose key the
appended part does not bind. -/
theorem lookupKey_append_right_none {α : Type} (key : String) (xs ys : List (String × α))
    (h : lookupKey key ys = none) :
    lookupKey key (xs ++ ys) = lookupKey key xs := by
  induction xs with
  | nil => simpa [lookupKey]
  | cons p rest ih =>
      obtain ⟨k, v⟩ := p
      by_cases hk : k = key
      · simp [lookupKey, hk]
      · simp [lookupKey, hk, ih]

/-- A key bound in `expected` is not bound in a list all of whose keys are
absent from `expected`. -/
theorem lookupKey_extra_none {α : Type} (key : String) (expected extra : List (String × α))
    (ev : α) (hsome : lookupKey key expected = some ev)
    (hextra : ∀ kv ∈ extra, lookupKey kv.1 expected = none) :
    lookupKey key extra = none := by
  induction extra with
  | nil => rfl
  | cons p rest ih =>
      obtain ⟨k, v⟩ := p
      have hk : ¬ k = key := by
        intro hkey
        have hnone := hextra (k, v) (by simp)
        rw [show ((k, v).1 : String) = key from hkey] at hnone
        rw [hsome] at hnone
        exact Option.noConfusion hnone
      simp only [lookupKey, if_neg hk]
      exact ih (fun kv hkv => hextra kv (by simp [hkv]))

/-- The comparison walks only the expected object's keys: enlarging the
observed object by bindings whose keys do not occur in the expected object
leaves the comparison's outcome unchanged. -/
theorem compareStructuredData_ignores_observedOnly_keys
    (expected : List (String × JValue)) :
    ∀ (observed extra : List (String × JValue)) (ignoreFields : String → Bool) (path : String),
      (∀ kv ∈ extra, lookupKey kv.1 expected = none) →
      compareStructuredData expected (observed ++ extra) ignoreFields path =
        compareStructuredData expected observed ignoreFields path := by
  induction expected with
  | nil =>
      intro observed extra ign path _hextra
      rw [compareStructuredData_nil, compareStructuredData_nil]
  | cons p rest ih =>
      intro observed extra ign path hextra
      obtain ⟨key, ev⟩ := p
      have hrest : ∀ kv ∈ extra, lookupKey kv.1 rest = none := by
        intro kv hkv
        have h := hextra kv hkv
        simp only [lookupKey] at h
        split at h
        · exact absurd h (by simp)
        · exact h
      have hkeyextra : lookupKey key extra = none :=
        lookupKey_extra_none key ((key, ev) :: rest) extra ev (by simp [lookupKey]) hextra
      have ihrest := ih observed extra ign path hrest
      by_cases hign : ign key = true
      · rw [compareStructuredData_cons_ignored key ev rest (observed ++ extra) ign path hign,
          compareStructuredData_cons_ignored key ev rest observed ign path hign]
        exact ihrest
      · have hign' : ign key = false := by simpa using hign
        cases hobs : lookupKey key observed with
        | none =>
            have hobs2 : lookupKey key (observed ++ extra) = none := by
              rw [lookupKey_append_right_none key observed extra hkeyextra, hobs]
            rw [compareStructuredData_cons_missing key ev rest (observed ++ extra) ign path
                hign' hobs2,
              compareStructuredData_cons_missing key ev rest observed ign path hign' hobs]
            rw [ihrest]
        | some cv =>
            have hobs2 : lookupKey key (observed ++ extra) = some cv := by
              rw [lookupKey_append_right_none key observed extra hkeyextra, hobs]
            rw [compareStructuredData_cons_found key ev cv rest (observed ++ extra) ign path
                hign' hobs2,
              compareStructuredData_cons_found key ev cv rest observed ign path hign' hobs]
            simp only [ihrest]

/-- C5: drift comparison walks only the expected object's keys, so bindings
whose keys occur only in the observed object never change the outcome; the
spec's concrete example reports no drift; and the default-ignored `id` and
`created_at` are skipped even when present in the expected object with
values differing from the observed ones. -/
theorem detectDrift_walks_only_expected_keys
    (expected observed extra : List (String × JValue)) (userIgnoreFields : List String)
    (hextra : ∀ kv ∈ extra, lookupKey kv.1 expected = none) :
    DetectDrift expected (observed ++ extra) userIgnoreFields =
      DetectDrift expected observed userIgnoreFields ∧
    DetectDrift [("name", .jstr "John"), ("email", .jstr "j@x.com")]
      [("name", .jstr "John"), ("email", .jstr "j@x.com"),
       ("id", .jstr "123"), ("created_at", .jstr "t")] [] = .ok false ∧
    DetectDrift [("name", .jstr "John"), ("email", .jstr "j@x.com"),
       ("id", .jstr "999"), ("created_at", .jstr "old")]
      [("name", .jstr "John"), ("email", .jstr "j@x.com"),
       ("id", .jstr "123"), ("created_at", .jstr "t")] [] = .ok false := by
  refine ⟨compareStructuredData_ignores_observedOnly_keys expected observed extra
    (ignoreSet userIgnoreFields) "" hextra, ?_, ?_⟩
  · rw [DetectDrift_eval]; decide
  · rw [DetectDrift_eval]; decide

/-- Witness for C5 at concrete objects: the observed-only binding `b` does
not change the outcome, and the spec's example evaluates to no drift. -/
theorem detectDrift_walks_only_expected_keys_witness :
    DetectDrift [("a", .jstr "1")] ([("a", .jstr "1")] ++ [("b", .jstr "2")]) [] =
      DetectDrift [("a", .jstr "1")] [("a", .jstr "1")] [] ∧
    DetectDrift [("name", .jstr "John"), ("email", .jstr "j@x.com")]
      [("name", .jstr "John"), ("email", .jstr "j@x.com"),
       ("id", .jstr "123"), ("created_at", .jstr "t")] [] = .ok false :=
  ⟨(detectDrift_walks_only_expected_keys [("a", .jstr "1")] [("a", .jstr "1")]
      [("b", .jstr "2")] []
      (by intro kv hkv
          simp only [List.mem_singleton] at hkv
          subst hkv
          simp [lookupKey])).1,
   (detectDrift_walks_only_expected_keys [] [] [] [] (by intro kv hkv; cases hkv)).2.1⟩

/-- C7: a Go `int` and a Go `float64` with the same numeric value compare
equal in `valuesEqual` (both orders), and the spec's concrete example — the
JSON literals `1` and `1.0`, decoded by `encoding/json` to `float64`, with
the integer-typed variant also checked — reports no drift. -/
theorem valuesEqual_numeric_cross_type (n : Int) (q : ℚ) (h : (n : ℚ) = q) :
    valuesEqual (.jint n) (.jfloat q) = .ok true ∧
    valuesEqual (.jfloat q) (.jint n) = .ok true ∧
    DetectDrift [("count", .jint 1)] [("count", .jfloat 1)] [] = .ok false ∧
    DetectDrift [("count", .jfloat 1)] [("count", .jfloat 1)] [] = .ok false := by
  refine ⟨by simp [valuesEqual, h], by simp [valuesEqual, h], ?_, ?_⟩
  · rw [DetectDrift_eval]; decide
  · rw [DetectDrift_eval]; decide

/-- Witness for C7 at n = 1, q = 1. -/
theorem valuesEqual_numeric_cross_type_witness :
    valuesEqual (.jint 1) (.jfloat 1) = .ok true ∧
    valuesEqual (.jfloat 1) (.jint 1) = .ok true ∧
    DetectDrift [("count", .jint 1)] [("count", .jfloat 1)] [] = .ok false ∧
    DetectDrift [("count", .jfloat 1)] [("count", .jfloat 1)] [] = .ok false :=
  valuesEqual_numeric_cross_type 1 1 (by norm_num)

/-- C2 (code bug): drift detection is not panic-free.  When an expected
field's value and the observed value are both nested objects (or both
arrays), `valuesEqual` falls through to the Go interface comparison
`a == b`, which panics at runtime on the non-comparable dynamic types
`map[string]interface{}` and `[]interface{}`; the panic escapes
`performDriftDetection` and aborts the read, even when the two sides are
identical. -/
theorem performDriftDetection_panics_on_nested_objects :
    performDriftDetection none "\x7b\"config\":\x7b\"x\":1\x7d\x7d"
      (some [("config", .jobj [("x", .jfloat 1)])])
      (some "\x7b\"config\":\x7b\"x\":1\x7d\x7d")
      (some [("config", .jobj [("x", .jfloat 1)])]) [] = .error () ∧
    DetectDrift [("config", .jobj [("x", .jfloat 1)])]
      [("config", .jobj [("x", .jfloat 1)])] [] = .error () ∧
    valuesEqual (.jobj [("x", .jfloat 1)]) (.jobj [("x", .jfloat 1)]) = .error () ∧
    valuesEqual (.jarr [.jfloat 1]) (.jarr [.jfloat 1]) = .error () := by
  refine ⟨?_, ?_, rfl, rfl⟩
  · show (DetectDrift [("config", .jobj [("x", .jfloat 1)])]
      [("config", .jobj [("x", .jfloat 1)])] []).map some = .error ()
    rw [DetectDrift_eval]
    decide
  · rw [DetectDrift_eval]; decide

/-- C6 (code bug): the recursive descent into nested objects with the
extended field path (rest_resource.go lines 998-1005) is unreachable: for a
pair of nested maps, `valuesEqual` is invoked first (line 989) and panics on
the non-comparable map types, so the comparison aborts before any recursion
and before the bare-key ignore matching could apply at depth. -/
theorem compareStructuredData_nested_recursion_unreachable :
    DetectDrift [("parent", .jobj [("child", .jstr "a")])]
      [("parent", .jobj [("child", .jstr "b")])] [] = .error () ∧
    valuesEqual (.jobj [("child", .jstr "a")]) (.jobj [("child", .jstr "b")]) = .error () := by
  refine ⟨?_, rfl⟩
  rw [DetectDrift_eval]; decide

/-! ## Response projector (processResponse, rest_resource.go lines 375-463) -/

/-- Rounding to an integer as Go's `fmt` verb `%.0f` does: round to nearest,
ties to even. -/
def roundHalfEven (q : ℚ) : Int :=
  let f := ⌊q⌋
  let frac := q - f
  if frac < 1/2 then f
  else if 1/2 < frac then f + 1
  else if f % 2 = 0 then f else f + 1

/-- `fmt.Sprintf("%.0f", v)` as applied to a decoded JSON number
(rest_resource.go line 409): the integer digits with no decimal point. -/
def goSprintfDotZeroF (v : ℚ) : String :=
  toString (roundHalfEven v)

/-- Lower-case hexadecimal digit. -/
def hexDigit (n : Nat) : Char :=
  if n < 10 then Char.ofNat (48 + n) else Char.ofNat (87 + n)

/-- `encoding/json` string escaping for one character (with the default HTML
escaping of `<`, `>`, `&` that `json.Marshal` applies). -/
def jsonEscapeChar (c : Char) : String :=
  if c = '"' then "\\\""
  else if c = '\\' then "\\\\"
  else if c = '\n' then "\\n"
  else if c = '\r' then "\\r"
  else if c = '\t' then "\\t"
  else if c = '<' then "\\u003c"
  else if c = '>' then "\\u003e"
  else if c = '&' then "\\u0026"
  else if c.toNat < 32 then
    "\\u00" ++ String.mk [hexDigit (c.toNat / 16), hexDigit (c.toNat % 16)]
  else String.singleton c

/-- `encoding/json` encoding of a string value. -/
def jsonQuote (s : String) : String :=
  "\"" ++ String.join (s.data.map jsonEscapeChar) ++ "\""

/-- `encoding/json` encoding of a `float64`: an integral value (the only kind
any claim exercises) is printed as the plain integer; Go renders non-integral
values by shortest-round-trip decimal, which no claim reaches and which the
model renders as an exact fraction. -/
def goFloatEncode (q : ℚ) : String :=
  if q.den = 1 then toString q.num
  else toString q.num ++ "/" ++ toString q.den

/-- Insertion step of the key sort `json.Marshal` applies to map keys. -/
def insertField (p : String × JValue) : List (String × JValue) → List (String × JValue)
  | [] => [p]
  | q :: rest => if p.1 ≤ q.1 then p :: q :: rest else q :: insertField p rest

/-- `json.Marshal` sorts a map's keys lexicographically before encoding. -/
def sortFields : List (String × JValue) → List (String × JValue)
  | [] => []
  | p :: rest => insertField p (sortFields rest)

theorem insertField_sizeOf (p : String × JValue) :
    ∀ l, sizeOf (insertField p l) = 1 + sizeOf p + sizeOf l := by
  intro l
  induction l with
  | nil => simp [insertField]
  | cons q rest ih =>
      by_cases h : p.1 ≤ q.1
      · simp [insertField, h]
      · simp [insertField, h, ih]
        omega

theorem sortFields_sizeOf : ∀ l, sizeOf (sortFields l) = sizeOf l := by
  intro l
  induction l with
  | nil => rfl
  | cons p rest ih => simp [sortFields, insertField_sizeOf, ih]

mutual

/-- `json.Marshal` over the decoded value bag, as invoked by
`processResponse` (rest_resource.go line 414) for the non-string,
non-number, non-bool top-level values: objects with sorted keys and no
whitespace, arrays, quoted strings, `null`, and Go number rendering. -/
def jsonMarshal : JValue → String
  | .jnull => "null"
  | .jbool b => if b then "true" else "false"
  | .jint n => toString n
  | .jfloat q => goFloatEncode q
  | .jstr s => jsonQuote s
  | .jarr elems => "[" ++ jsonMarshalElems elems ++ "]"
  | .jobj fields => "\x7b" ++ jsonMarshalFields (sortFields fields) ++ "\x7d"
termination_by v => sizeOf v
decreasing_by
  all_goals simp_wf
  all_goals first
    | omega
    | (rw [sortFields_sizeOf]; omega)

/-- Comma-separated encoding of array elements. -/
def jsonMarshalElems : List JValue → String
  | [] => ""
  | [v] => jsonMarshal v
  | v :: rest => jsonMarshal v ++ "," ++ jsonMarshalElems rest
termination_by l => sizeOf l
decreasing_by
  all_goals simp_wf
  all_goals omega

/-- Comma-separated encoding of object fields (already sorted). -/
def jsonMarshalFields : List (String × JValue) → String
  | [] => ""
  | [(k, v)] => jsonQuote k ++ ":" ++ jsonMarshal v
  | (k, v) :: rest => jsonQuote k ++ ":" ++ jsonMarshal v ++ "," ++ jsonMarshalFields rest
termination_by l => sizeOf l
decreasing_by
  all_goals simp_wf
  all_goals omega

end

/-- The per-key stringification of the `responseData` loop in
`processResponse` (rest_resource.go lines 402-419): `nil` values are
skipped, strings pass through, `float64` goes through `%.0f`, bools through
`%t`, and everything else through `json.Marshal` (which cannot fail on a
value produced by `json.Unmarshal`, so the `err == nil` guard is always
taken). -/
def stringifyTop : JValue → Option String
  | .jnull => none
  | .jstr s => some s
  | .jfloat v => some (goSprintfDotZeroF v)
  | .jbool b => some (if b then "true" else "false")
  | v => some (jsonMarshal v)

/-- The spec's `Project` contract: the flat string-keyed map built from the
parsed top-level object. -/
def Project (parsed : List (String × JValue)) : List (String × String) :=
  parsed.filterMap (fun kv => (stringifyTop kv.2).map (fun s => (kv.1, s)))

/-- The identifier extraction of `processResponse` (rest_resource.go lines
440-452): a top-level `id` key holding a string. -/
def extractResponseId (parsed : List (String × JValue)) : Option String :=
  match lookupKey "id" parsed with
  | some (.jstr s) => some s
  | _ => none

/-- The spec's round-trip example body, parsed:
`id="42"`, `name="x"`, `active=true`, `meta` a nested object. -/
def projExample : List (String × JValue) :=
  [("id", .jstr "42"), ("name", .jstr "x"), ("active", .jbool true),
   ("meta", .jobj [("a", .jfloat 1)])]

/-- `%.0f` on a whole number prints its integer part exactly. -/
theorem goSprintf_whole (q : ℚ) (h : q.den = 1) : goSprintfDotZeroF q = toString q.num := by
  have hq : (q.num : ℚ) = q := by
    rw [← Rat.den_eq_one_iff]
    exact h
  unfold goSprintfDotZeroF roundHalfEven
  rw [← hq, Int.floor_intCast]
  norm_num

/-- C9: projecting the spec's example body yields `id="42"`, `name="x"`,
`active="true"`, `meta` the JSON fragment for the nested object, and
identifier `"42"`; in general strings pass through unchanged, booleans
become `true`/`false`, whole numbers are integer-formatted, and nested
objects and arrays are re-serialized to their JSON text. -/
theorem project_roundtrip_and_stringification :
    (lookupKey "id" (Project projExample) = some "42" ∧
     lookupKey "name" (Project projExample) = some "x" ∧
     lookupKey "active" (Project projExample) = some "true" ∧
     lookupKey "meta" (Project projExample) = some "\x7b\"a\":1\x7d" ∧
     extractResponseId projExample = some "42") ∧
    (∀ s, stringifyTop (.jstr s) = some s) ∧
    (∀ b, stringifyTop (.jbool b) = some (if b then "true" else "false")) ∧
    (∀ q : ℚ, q.den = 1 → stringifyTop (.jfloat q) = some (toString q.num)) ∧
    (∀ fields, stringifyTop (.jobj fields) = some (jsonMarshal (.jobj fields))) ∧
    (∀ elems, stringifyTop (.jarr elems) = some (jsonMarshal (.jarr elems))) := by
  have hm : jsonMarshal (.jobj [("a", .jfloat 1)]) = "\x7b\"a\":1\x7d" := by
    simp only [jsonMarshal, jsonMarshalFields, sortFields, insertField, jsonQuote,
      jsonEscapeChar, goFloatEncode, String.join, String.singleton]
    rfl
  refine ⟨⟨?_, ?_, ?_, ?_, by decide⟩, fun s => rfl, fun b => rfl,
    fun q hq => ?_, fun fields => rfl, fun elems => rfl⟩
  · simp [Project, projExample, stringifyTop, lookupKey, hm]
  · simp [Project, projExample, stringifyTop, lookupKey, hm]
  · simp [Project, projExample, stringifyTop, lookupKey, hm]
  · simp [Project, projExample, stringifyTop, lookupKey, hm]
  · simp [stringifyTop, goSprintf_whole q hq]

/-- Witness for C9: the whole number 7 satisfies the whole-number hypothesis
and is integer-formatted. -/
theorem project_roundtrip_and_stringification_witness :
    (7:ℚ).den = 1 ∧ stringifyTop (.jfloat 7) = some (toString (7:ℚ).num) :=
  ⟨by decide, project_roundtrip_and_stringification.2.2.2.1 7 (by decide)⟩

/-! ## Provider configuration (internal/provider/provider.go) -/

/-- The provider-level configuration block as read by `Configure`
(provider.go lines 126-141); `none` models a null/absent attribute. -/
structure ProviderConfigModel where
  apiURL : Option String
  apiToken : Option String
  apiHeader : Option String
  clientCert : Option String
  clientKey : Option String
  clientCertFile : Option String
  clientKeyFile : Option String
  pkcs12Bundle : Option String
  pkcs12File : Option String
  pkcs12Password : Option String
  timeout : Option Int
  insecure : Option Bool
  retryAttempts : Option Int
  maxIdleConns : Option Int
deriving DecidableEq

/-- The diagnostics `Configure` can add before creating the client
(provider.go lines 150-210). -/
inductive ConfigureError where
  | missingConfiguration
  | missingAuthentication
  | multipleAuthenticationMethods
  | incompleteCertAuthentication
  | incompleteCertFileAuthentication
deriving DecidableEq

/-- The client `Config` struct of client.go as populated by `Configure`
(unset string fields are empty strings; the timeout is kept in seconds). -/
structure ClientConfigModel where
  baseURL : String
  token : String
  tokenHeader : String
  clientCert : String
  clientKey : String
  clientCertFile : String
  clientKeyFile : String
  pkcs12Bundle : String
  pkcs12File : String
  pkcs12Password : String
  timeoutSeconds : Int
  insecure : Bool
  retryAttempts : Int
  maxIdleConns : Int
deriving DecidableEq

/-- The `authMethods` count of provider.go lines 158-175: token;
a complete certificate pair (inline or file-based); PKCS12 material. -/
def countAuthMethods (c : ProviderConfigModel) : Nat :=
  (if c.apiToken.isSome then 1 else 0) +
  (if (c.clientCert.isSome ∧ c.clientKey.isSome) ∨
      (c.clientCertFile.isSome ∧ c.clientKeyFile.isSome) then 1 else 0) +
  (if c.pkcs12Bundle.isSome ∨ c.pkcs12File.isSome then 1 else 0)

/-- A client configuration with no authentication material filled in. -/
def emptyClientConfig (baseURL : String) (timeoutSeconds : Int) (insecure : Bool)
    (retryAttempts maxIdleConns : Int) : ClientConfigModel :=
  ⟨baseURL, "", "", "", "", "", "", "", "", "", timeoutSeconds, insecure,
    retryAttempts, maxIdleConns⟩

/-- The client-configuration assembly of provider.go lines 212-272: defaults
(30s timeout, 3 retries, 100 idle connections, `Authorization` header,
insecure off), then the first matching authentication branch. -/
def buildClientConfig (c : ProviderConfigModel) : ClientConfigModel :=
  let timeoutSeconds := c.timeout.getD 30
  let retryAttempts := c.retryAttempts.getD 3
  let maxIdleConns := c.maxIdleConns.getD 100
  let apiHeader := c.apiHeader.getD "Authorization"
  let insecure := c.insecure.getD false
  let base := emptyClientConfig (c.apiURL.getD "") timeoutSeconds insecure
    retryAttempts maxIdleConns
  match c.apiToken with
  | some tok => { base with token := tok, tokenHeader := apiHeader }
  | none =>
    match c.clientCert, c.clientKey with
    | some cert, some key => { base with clientCert := cert, clientKey := key }
    | _, _ =>
      match c.clientCertFile, c.clientKeyFile with
      | some certFile, some keyFile =>
          { base with clientCertFile := certFile, clientKeyFile := keyFile }
      | _, _ =>
        match c.pkcs12Bundle with
        | some bundle =>
            { base with pkcs12Bundle := bundle,
                        pkcs12Password := c.pkcs12Password.getD "" }
        | none =>
          match c.pkcs12File with
          | some file =>
              { base with pkcs12File := file,
                          pkcs12Password := c.pkcs12Password.getD "" }
          | none => base

/-- `Configure` (provider.go lines 124-283): the validation chain in source
order — missing URL, no authentication method, several methods, incomplete
inline pair, incomplete file pair — and, only when all pass, the client
configuration handed to `NewRestClient`.  An `.error` therefore means the
flow stops before any client exists or any request can be attempted. -/
def Configure (c : ProviderConfigModel) : Except ConfigureError ClientConfigModel :=
  if c.apiURL.isNone then .error .missingConfiguration
  else if countAuthMethods c = 0 then .error .missingAuthentication
  else if 1 < countAuthMethods c then .error .multipleAuthenticationMethods
  else if (c.clientCert.isSome ∧ c.clientKey.isNone) ∨
          (c.clientCert.isNone ∧ c.clientKey.isSome) then
    .error .incompleteCertAuthentication
  else if (c.clientCertFile.isSome ∧ c.clientKeyFile.isNone) ∨
          (c.clientCertFile.isNone ∧ c.clientKeyFile.isSome) then
    .error .incompleteCertFileAuthentication
  else .ok (buildClientConfig c)

/-- The errors of `configureTLSAuth` (client.go lines 403-455), one per
failing parse/load step. -/
inductive TLSAuthError where
  | invalidCertificate
  | certFileLoadFailure
  | invalidPKCS12Encoding
  | invalidPKCS12Bundle
  | pkcs12FileReadFailure
  | invalidPKCS12File
deriving DecidableEq

/-- Whether `configureTLSAuth` installed client-certificate material into
the TLS configuration. -/
inductive TLSAuthOutcome where
  | clientCertLoaded
  | noClientCert
deriving DecidableEq

/-- `configureTLSAuth` (client.go lines 403-455).  Parsing PEM pairs,
loading files, base64-decoding and PKCS12 decoding are external, supplied as
oracles (`Bool` = step succeeds; `Option` = produced data).  The branches
are tried in source order; with no certificate material configured the
function returns successfully with nothing installed (line 454). -/
def configureTLSAuth
    (parseKeyPair : String → String → Bool)
    (loadKeyPairFiles : String → String → Bool)
    (base64Decode : String → Option String)
    (parsePKCS12Data : String → String → Bool)
    (readFile : String → Option String)
    (cfg : ClientConfigModel) : Except TLSAuthError TLSAuthOutcome :=
  if cfg.clientCert ≠ "" ∧ cfg.clientKey ≠ "" then
    if parseKeyPair cfg.clientCert cfg.clientKey then .ok .clientCertLoaded
    else .error .invalidCertificate
  else if cfg.clientCertFile ≠ "" ∧ cfg.clientKeyFile ≠ "" then
    if loadKeyPairFiles cfg.clientCertFile cfg.clientKeyFile then .ok .clientCertLoaded
    else .error .certFileLoadFailure
  else if cfg.pkcs12Bundle ≠ "" then
    match base64Decode cfg.pkcs12Bundle with
    | none => .error .invalidPKCS12Encoding
    | some data =>
        if parsePKCS12Data data cfg.pkcs12Password then .ok .clientCertLoaded
        else .error .invalidPKCS12Bundle
  else if cfg.pkcs12File ≠ "" then
    match readFile cfg.pkcs12File with
    | none => .error .pkcs12FileReadFailure
    | some data =>
        if parsePKCS12Data data cfg.pkcs12Password then .ok .clientCertLoaded
        else .error .invalidPKCS12File
  else .ok .noClientCert

/-- C10: a provider configuration with an API URL but no token, no complete
certificate pair and no PKCS12 material is rejected by `Configure` with the
Missing Authentication diagnostic — before any client is built or request
attempted — even though `configureTLSAuth` itself, for any parsing oracles,
treats the absence of client-certificate material as a non-error. -/
theorem configure_missing_authentication_rejected
    (c : ProviderConfigModel)
    (hurl : c.apiURL.isSome)
    (htok : c.apiToken = none)
    (hcert : ¬ ((c.clientCert.isSome ∧ c.clientKey.isSome) ∨
                (c.clientCertFile.isSome ∧ c.clientKeyFile.isSome)))
    (hp12 : c.pkcs12Bundle = none ∧ c.pkcs12File = none) :
    Configure c = .error .missingAuthentication ∧
    (∀ (parseKeyPair loadKeyPairFiles : String → String → Bool)
       (base64Decode : String → Option String)
       (parsePKCS12Data : String → String → Bool)
       (readFile : String → Option String) (cfg : ClientConfigModel),
       cfg.clientCert = "" → cfg.clientCertFile = "" →
       cfg.pkcs12Bundle = "" → cfg.pkcs12File = "" →
       configureTLSAuth parseKeyPair loadKeyPairFiles base64Decode parsePKCS12Data
         readFile cfg = .ok .noClientCert) := by
  constructor
  · have hcount : countAuthMethods c = 0 := by
      simp only [countAuthMethods, htok, hp12.1, hp12.2, Option.isSome_none]
      rw [if_neg (by simp), if_neg hcert, if_neg (by simp)]
    unfold Configure
    rw [if_neg (by simp [Option.isNone_iff_eq_none]; intro hn; rw [hn] at hurl; simp at hurl)]
    rw [if_pos hcount]
  · intro parseKeyPair loadKeyPairFiles base64Decode parsePKCS12Data readFile cfg
      h1 h2 h3 h4
    unfold configureTLSAuth
    rw [if_neg (by simp [h1]), if_neg (by simp [h2]), if_neg (by simp [h3]),
      if_neg (by simp [h4])]

/-- A provider configuration with only the API URL set. -/
def missingAuthExample : ProviderConfigModel :=
  ⟨some "https://api.example.com", none, none, none, none, none, none, none,
   none, none, none, none, none, none⟩

/-- Witness for C10 at the concrete URL-only configuration and an empty
client configuration. -/
theorem configure_missing_authentication_rejected_witness :
    Configure missingAuthExample = .error .missingAuthentication ∧
    configureTLSAuth (fun _ _ => true) (fun _ _ => true) (fun _ => none)
      (fun _ _ => true) (fun _ => none)
      (emptyClientConfig "https://api.example.com" 30 false 3 100) =
      .ok .noClientCert :=
  ⟨(configure_missing_authentication_rejected missingAuthExample (by decide) rfl
      (by decide) ⟨rfl, rfl⟩).1,
   (configure_missing_authentication_rejected missingAuthExample (by decide) rfl
      (by decide) ⟨rfl, rfl⟩).2 (fun _ _ => true) (fun _ _ => true) (fun _ => none)
      (fun _ _ => true) (fun _ => none)
      (emptyClientConfig "https://api.example.com" 30 false 3 100) rfl rfl rfl rfl⟩
